import Mathlib

/-!
# Clusterpedia: request routing and the internal storage factory

A shallow embedding of

* `pkg/kubeapiserver/resource_handler.go` (`ResourceHandler.ServeHTTP`),
* `pkg/storage/internalstorage/storage.go` (`Resource`, `StorageFactory`),
* `pkg/apis/pedia/v1alpha1/zz_generated.deepcopy.go` (`CollectionResource.DeepCopy`),

followed by the properties proved about them.

The HTTP side effects of `ServeHTTP` (which handler is invoked, which error
is written) are recorded as a trace of `Effect`s, in the order the source
performs them.
-/

set_option autoImplicit false
set_option linter.dupNamespace false

namespace Clusterpedia

/-! ## `schema` : group / version / resource -/

/-- The `schema.GroupVersion` of apimachinery. -/
structure GroupVersion where
  Group : String
  Version : String
  deriving DecidableEq, Repr

/-- The `schema.GroupResource` of apimachinery. -/
structure GroupResource where
  Group : String
  Resource : String
  deriving DecidableEq, Repr

/-- The `schema.GroupVersionResource` of apimachinery. -/
structure GroupVersionResource where
  Group : String
  Version : String
  Resource : String
  deriving DecidableEq, Repr

/-- The method `gvr.GroupVersion()`. -/
def GroupVersionResource.GroupVersion (gvr : GroupVersionResource) : GroupVersion :=
  { Group := gvr.Group, Version := gvr.Version }

/-- The method `gvr.GroupResource()`. -/
def GroupVersionResource.GroupResource (gvr : GroupVersionResource) : GroupResource :=
  { Group := gvr.Group, Resource := gvr.Resource }

/-! ## `kubeapiserver` : the resource handler -/

/-- The fields of `request.RequestInfo` that `ServeHTTP` reads. -/
structure RequestInfo where
  IsResourceRequest : Bool
  Verb : String
  APIGroup : String
  APIVersion : String
  Namespace : String
  Resource : String
  deriving DecidableEq, Repr

/-- The kind a request addresses: the `gvr` that `ServeHTTP` builds. -/
def RequestInfo.gvr (info : RequestInfo) : GroupVersionResource :=
  { Group := info.APIGroup, Version := info.APIVersion, Resource := info.Resource }

/-- What `ServeHTTP` reads from the request context: the request info
(`kuberequest.RequestInfoFrom`, absent when `ok` is false) and the cluster
name (`request.ClusterNameValue`, the empty string when unset). -/
structure Request where
  requestInfo : Option RequestInfo
  clusterName : String
  deriving DecidableEq, Repr

/-- The field of `metav1.APIResource` that `ServeHTTP` reads, with its name. -/
structure APIResource where
  Name : String
  Namespaced : Bool
  deriving DecidableEq, Repr

/-- The `RESTResourceInfo` returned by `RESTManager.GetRESTResourceInfo`.
Request scope and storage are handles, named here by a number. -/
structure RESTResourceInfo where
  APIResource : APIResource
  RequestScope : Nat
  Storage : Nat
  deriving DecidableEq, Repr

/-- The receiver of `ServeHTTP`. The discovery manager and the REST manager
are not part of the handler's file: their lookups `ResourceEnabled`,
`GetRESTResourceInfo` and the test `info.Empty()` are taken as parameters. -/
structure ResourceHandler where
  minRequestTimeout : Nat
  ResourceEnabled : String → GroupVersionResource → Bool
  GetRESTResourceInfo : GroupVersionResource → RESTResourceInfo
  Empty : RESTResourceInfo → Bool

/-- One observable action of `ServeHTTP`. -/
inductive Effect where
  /-- The call `responsewriters.ErrorNegotiated(apierrors.NewInternalError(..), .., gv, ..)`. -/
  | internalError (msg : String) (gv : GroupVersion)
  /-- The call `r.discovery.ServeHTTP(w, req)`. -/
  | discovery
  /-- The call `r.delegate.ServeHTTP(w, req)`: the pass-through path. -/
  | delegate
  /-- Serving with `handlers.GetResource(storage, reqScope)`. -/
  | getResource (storage : Nat) (reqScope : Nat)
  /-- Serving with `handlers.ListResource(storage, nil, reqScope, false, minRequestTimeout)`. -/
  | listResource (storage : Nat) (reqScope : Nat) (minRequestTimeout : Nat)
  /-- The call `responsewriters.ErrorNegotiated(err, .., gv, ..)` with `err` the
  `apierrors.NewMethodNotSupported(gr, verb)`. -/
  | methodNotSupported (gr : GroupResource) (verb : String) (gv : GroupVersion)
  deriving DecidableEq, Repr

/-- The effect is a storage-backed get or list handler. -/
def Effect.isStorage : Effect → Bool
  | .getResource _ _ => true
  | .listResource _ _ _ => true
  | _ => false

/-- The effect is an error response. -/
def Effect.isError : Effect → Bool
  | .internalError _ _ => true
  | .methodNotSupported _ _ _ => true
  | _ => false

/-- The `switch requestInfo.Verb` of `ServeHTTP`. The `get` case with an empty
cluster calls the delegate and returns from `ServeHTTP` (`Except.error` with the
trace); otherwise the switch ends with the effects it produced and the value
of the variable `handler` (`none` for the nil handler of the default case). -/
def verbSwitch (r : ResourceHandler) (cluster : String) (gvr : GroupVersionResource)
    (verb : String) (info : RESTResourceInfo) :
    Except (List Effect) (List Effect × Option Effect) :=
  if verb = "get" then
    if cluster = "" then
      Except.error [Effect.delegate]
    else
      Except.ok ([], some (Effect.getResource info.Storage info.RequestScope))
  else if verb = "list" then
    Except.ok ([], some (Effect.listResource info.Storage info.RequestScope r.minRequestTimeout))
  else
    Except.ok ([Effect.methodNotSupported gvr.GroupResource verb gvr.GroupVersion], none)

/-- The method `ResourceHandler.ServeHTTP`, returning the trace of its effects. -/
def ResourceHandler.ServeHTTP (r : ResourceHandler) (req : Request) : List Effect :=
  match req.requestInfo with
  | none =>
    [Effect.internalError "no RequestInfo found in the context" { Group := "", Version := "" }]
  | some requestInfo =>
    if !requestInfo.IsResourceRequest then
      [Effect.discovery]
    else
      let gvr : GroupVersionResource :=
        { Group := requestInfo.APIGroup, Version := requestInfo.APIVersion,
          Resource := requestInfo.Resource }
      let cluster := req.clusterName
      if !r.ResourceEnabled cluster gvr then
        [Effect.delegate]
      else
        let info := r.GetRESTResourceInfo gvr
        if r.Empty info then
          [Effect.internalError "not found request scope or resource storage" gvr.GroupVersion]
        else if requestInfo.Namespace ≠ "" && !info.APIResource.Namespaced then
          [Effect.delegate]
        else
          match verbSwitch r cluster gvr requestInfo.Verb info with
          | Except.error trace => trace
          | Except.ok (trace, none) => trace
          | Except.ok (trace, some handler) => trace ++ [handler]

/-! ## `internalstorage` : the record and the database handle -/

/-- The record `Resource` of `storage.go`. Times are instants counted from the
zero time (`0` is the zero `time.Time`); `DeletedAt` is the `sql.NullTime`,
`none` when not valid. -/
structure Resource where
  ID : Nat
  Group : String
  Version : String
  Resource : String
  Kind : String
  Cluster : String
  Namespace : String
  Name : String
  UID : String
  ResourceVersion : String
  Object : String
  CreatedAt : Nat
  SyncedAt : Nat
  DeletedAt : Option Nat
  deriving DecidableEq, Repr

/-- The zero value `Resource{}`. -/
def Resource.zero : Clusterpedia.Resource :=
  { ID := 0, Group := "", Version := "", Resource := "", Kind := "", Cluster := "",
    Namespace := "", Name := "", UID := "", ResourceVersion := "", Object := "",
    CreatedAt := 0, SyncedAt := 0, DeletedAt := none }

/-- The method `Resource.GroupVersionResource`. -/
def Resource.GroupVersionResource (res : Clusterpedia.Resource) : GroupVersionResource :=
  { Group := res.Group, Version := res.Version, Resource := res.Resource }

/-- The gorm tag of a field of `Resource`, as far as indexes go: the column of
the field (gorm names it by the snake case of the field name, as the `Select`
of `GetResourceVersions` does), the unique index named by `uniqueIndex:`, if
any, and the `length:` option given with it, if any. -/
structure FieldTag where
  column : String
  uniqueIndex : Option String
  length : Option Nat
  deriving DecidableEq, Repr

/-- The tags of the fields of `Resource`, in the order of the struct. -/
def Resource.fieldTags : List FieldTag :=
  [{ column := "id", uniqueIndex := none, length := none },
   { column := "group",
     uniqueIndex := some "uni_group_version_resource_cluster_namespace_name", length := none },
   { column := "version",
     uniqueIndex := some "uni_group_version_resource_cluster_namespace_name", length := none },
   { column := "resource",
     uniqueIndex := some "uni_group_version_resource_cluster_namespace_name", length := none },
   { column := "kind", uniqueIndex := none, length := none },
   { column := "cluster",
     uniqueIndex := some "uni_group_version_resource_cluster_namespace_name",
     length := some 100 },
   { column := "namespace",
     uniqueIndex := some "uni_group_version_resource_cluster_namespace_name",
     length := some 50 },
   { column := "name",
     uniqueIndex := some "uni_group_version_resource_cluster_namespace_name",
     length := some 100 },
   { column := "uid", uniqueIndex := none, length := none },
   { column := "resource_version", uniqueIndex := none, length := none },
   { column := "object", uniqueIndex := none, length := none },
   { column := "created_at", uniqueIndex := none, length := none },
   { column := "synced_at", uniqueIndex := none, length := none },
   { column := "deleted_at", uniqueIndex := none, length := none }]

/-- The columns of the unique index of the given name: the columns of the fields
whose tag names it, in the order of the struct. -/
def Resource.indexColumns (index : String) : List String :=
  (Resource.fieldTags.filter (fun tag => decide (tag.uniqueIndex = some index))).map
    (fun tag => tag.column)

/-- The value of a column of a record. -/
inductive ColumnValue where
  | text (s : String)
  | number (n : Nat)
  | null
  deriving DecidableEq, Repr

/-- The value a record has in the column of the given name. -/
def Resource.columnValue (res : Clusterpedia.Resource) (column : String) : ColumnValue :=
  if column = "id" then ColumnValue.number res.ID
  else if column = "group" then ColumnValue.text res.Group
  else if column = "version" then ColumnValue.text res.Version
  else if column = "resource" then ColumnValue.text res.Resource
  else if column = "kind" then ColumnValue.text res.Kind
  else if column = "cluster" then ColumnValue.text res.Cluster
  else if column = "namespace" then ColumnValue.text res.Namespace
  else if column = "name" then ColumnValue.text res.Name
  else if column = "uid" then ColumnValue.text res.UID
  else if column = "resource_version" then ColumnValue.text res.ResourceVersion
  else if column = "object" then ColumnValue.text res.Object
  else if column = "created_at" then ColumnValue.number res.CreatedAt
  else if column = "synced_at" then ColumnValue.number res.SyncedAt
  else if column = "deleted_at" then
    match res.DeletedAt with
    | some t => ColumnValue.number t
    | none => ColumnValue.null
  else ColumnValue.null

/-- The key of a record in the unique index
`uni_group_version_resource_cluster_namespace_name`: its values in the columns
of the index. Two records collide on the index exactly when their keys are
equal. The `length:` options are kept in `Resource.fieldTags`; what a backend
makes of them is not part of the declaration and is not modelled. -/
def Resource.uniqueIndexKey (res : Clusterpedia.Resource) : List ColumnValue :=
  (Resource.indexColumns "uni_group_version_resource_cluster_namespace_name").map
    res.columnValue

/-- The identity tuple (group, version, resource, cluster, namespace, name). -/
def Resource.identity (res : Clusterpedia.Resource) :
    String × String × String × String × String × String :=
  (res.Group, res.Version, res.Resource, res.Cluster, res.Namespace, res.Name)

/-- An error of a gorm statement. -/
inductive DBError where
  /-- The error `gorm.ErrMissingWhereClause`: a delete without any condition. -/
  | missingWhereClause
  /-- An error reported by the database backend. -/
  | backend (msg : String)
  deriving DecidableEq, Repr

/-- The handle `*gorm.DB` with the table of `Resource` records behind it.
`fault` is the error, if any, with which the backend answers a statement. -/
structure DB where
  rows : List Resource
  fault : Option String
  deriving DecidableEq, Repr

/-- The struct condition `Where(&q)` of gorm holds of `row`: gorm builds one
equality per field of `q` that is not the zero value of its type and skips
the fields that are zero. Equality of a column with a value is equality of
strings. -/
def whereStruct (q row : Resource) : Bool :=
  (q.ID = 0 || row.ID = q.ID) &&
  (q.Group = "" || row.Group = q.Group) &&
  (q.Version = "" || row.Version = q.Version) &&
  (q.Resource = "" || row.Resource = q.Resource) &&
  (q.Kind = "" || row.Kind = q.Kind) &&
  (q.Cluster = "" || row.Cluster = q.Cluster) &&
  (q.Namespace = "" || row.Namespace = q.Namespace) &&
  (q.Name = "" || row.Name = q.Name) &&
  (q.UID = "" || row.UID = q.UID) &&
  (q.ResourceVersion = "" || row.ResourceVersion = q.ResourceVersion) &&
  (q.Object = "" || row.Object = q.Object) &&
  (q.CreatedAt = 0 || row.CreatedAt = q.CreatedAt) &&
  (q.SyncedAt = 0 || row.SyncedAt = q.SyncedAt) &&
  (q.DeletedAt = none || row.DeletedAt = q.DeletedAt)

/-- The struct condition `Where(&q)` adds no condition at all: every field of
`q` is zero. -/
def whereEmpty (q : Resource) : Bool :=
  decide (q = Resource.zero)

/-- The statement `db.Where(&q).Delete(&Resource{})`: the new table and
`result.Error`. `DeletedAt` is a `sql.NullTime`, not a `gorm.DeletedAt`, so the
rows are removed. Without a condition gorm refuses the statement with
`ErrMissingWhereClause` before it reaches the backend. -/
def DB.WhereDelete (db : DB) (q : Resource) : DB × Option DBError :=
  if whereEmpty q then
    (db, some DBError.missingWhereClause)
  else
    match db.fault with
    | some msg => (db, some (DBError.backend msg))
    | none => ({ db with rows := db.rows.filter (fun row => !whereStruct q row) }, none)

/-- The columns kept by
`Select("group", "version", "resource", "namespace", "name", "resource_version")`:
the other fields of a scanned record stay zero. -/
def selectCursorColumns (row : Resource) : Resource :=
  { Resource.zero with
    Group := row.Group, Version := row.Version, Resource := row.Resource,
    Namespace := row.Namespace, Name := row.Name, ResourceVersion := row.ResourceVersion }

/-- The statement `db.Select(..).Where(&q).Find(&resources)`: the records
scanned into `resources`, or `result.Error`. -/
def DB.SelectWhereFind (db : DB) (q : Resource) : Except DBError (List Resource) :=
  match db.fault with
  | some msg => Except.error (DBError.backend msg)
  | none => Except.ok ((db.rows.filter (fun row => whereStruct q row)).map selectCursorColumns)

/-- An error of the storage layer: the database error tagged with a key. -/
structure StorageError where
  key : String
  cause : DBError
  deriving DecidableEq, Repr

/-- Modelled from the spec: the helper `InterpreError(key, err)` of the package,
whose file is not among the sources. "Errors from the backend are normalized
into a small taxonomy ... tagged with the cluster identity": a nil error stays
nil, any other error is returned tagged with the key. -/
def InterpreError (key : String) (err : Option DBError) : Option StorageError :=
  err.map (fun e => { key := key, cause := e })

/-- The struct `StorageFactory`. -/
structure StorageFactory where
  db : DB
  deriving DecidableEq, Repr

/-! ## Go maps -/

/-- A Go map: the entries in the order of first insertion, one per key. -/
abbrev GoMap (κ : Type) (ν : Type) := List (κ × ν)

/-- The read `m[k]` with its presence flag. -/
def GoMap.get? {κ ν : Type} [DecidableEq κ] : GoMap κ ν → κ → Option ν
  | [], _ => none
  | (k', v) :: rest, k => if k' = k then some v else GoMap.get? rest k

/-- The assignment `m[k] = v`. -/
def GoMap.set {κ ν : Type} [DecidableEq κ] : GoMap κ ν → κ → ν → GoMap κ ν
  | [], k, v => [(k, v)]
  | (k', v') :: rest, k, v =>
    if k' = k then (k, v) :: rest else (k', v') :: GoMap.set rest k v

/-! ## `internalstorage` : the storage factory -/

/-- The key under which `GetResourceVersions` files a record: the name, or
`namespace/name` when the namespace is not empty. -/
def cursorKey (resource : Resource) : String :=
  if resource.Namespace ≠ "" then resource.Namespace ++ "/" ++ resource.Name
  else resource.Name

/-- One turn of the loop of `GetResourceVersions`. The inner map is looked up,
created when absent (a nil map), and assigned into; being a reference, the
assignment is seen through `resourceversions[gvr]`. -/
def cursorStep (resourceversions : GoMap GroupVersionResource (GoMap String String))
    (resource : Resource) : GoMap GroupVersionResource (GoMap String String) :=
  let gvr := resource.GroupVersionResource
  let versions : GoMap String String :=
    match GoMap.get? resourceversions gvr with
    | some versions => versions
    | none => []
  GoMap.set resourceversions gvr (GoMap.set versions (cursorKey resource) resource.ResourceVersion)

/-- The method `StorageFactory.GetResourceVersions`: the map, or the error
returned with a nil map (a nil map reads as the empty one). -/
def StorageFactory.GetResourceVersions (f : StorageFactory) (cluster : String) :
    Except StorageError (GoMap GroupVersionResource (GoMap String String)) :=
  match f.db.SelectWhereFind { Resource.zero with Cluster := cluster } with
  | Except.error e =>
    match InterpreError cluster (some e) with
    | some err => Except.error err
    | none => Except.ok []
  | Except.ok resources => Except.ok (resources.foldl cursorStep [])

/-- The method `StorageFactory.CleanCluster`: the factory afterwards and the
error returned. -/
def StorageFactory.CleanCluster (f : StorageFactory) (cluster : String) :
    StorageFactory × Option StorageError :=
  let result := f.db.WhereDelete { Resource.zero with Cluster := cluster }
  ({ db := result.1 }, InterpreError cluster result.2)

/-- The method `StorageFactory.CleanClusterResource`: the factory afterwards and
the error returned. The key of the error is `fmt.Sprintf("%s/%s", cluster, gvr)`,
where `gvr` prints as `group/version, Resource=resource`. -/
def StorageFactory.CleanClusterResource (s : StorageFactory) (cluster : String)
    (gvr : GroupVersionResource) : StorageFactory × Option StorageError :=
  let resource : Resource :=
    { Resource.zero with
      Cluster := cluster, Group := gvr.Group, Resource := gvr.Resource, Version := gvr.Version }
  let result := s.db.WhereDelete resource
  ({ db := result.1 },
    InterpreError
      (cluster ++ "/" ++ gvr.Group ++ "/" ++ gvr.Version ++ ", Resource=" ++ gvr.Resource)
      result.2)

/-! ## `pedia` : collection resources -/

/-- The `metav1.TypeMeta` of apimachinery. -/
structure TypeMeta where
  Kind : String
  APIVersion : String
  deriving DecidableEq, Repr

/-- The `metav1.ObjectMeta` of apimachinery, with its identifying fields and
its two maps (`none` is the nil map). -/
structure ObjectMeta where
  Name : String
  Namespace : String
  UID : String
  ResourceVersion : String
  Labels : Option (GoMap String String)
  Annotations : Option (GoMap String String)
  deriving DecidableEq, Repr

/-- The struct `CollectionResourceType`. -/
structure CollectionResourceType where
  Group : String
  Version : String
  Resource : String
  deriving DecidableEq, Repr

/-- The `runtime.RawExtension` of apimachinery: the raw bytes (`none` is the nil
slice). -/
structure RawExtension where
  Raw : Option (List Nat)
  deriving DecidableEq, Repr

/-- The struct `CollectionResource`. A slice is `none` when nil. -/
structure CollectionResource where
  TypeMeta : TypeMeta
  ObjectMeta : ObjectMeta
  ResourceTypes : Option (List CollectionResourceType)
  Items : Option (List RawExtension)
  deriving DecidableEq, Repr

/-- A fresh slice or map of the same length filled by `copy`, element by element. -/
def copyElements {α : Type} (copy : α → α) : List α → List α
  | [] => []
  | a :: rest => copy a :: copyElements copy rest

/-- The method `ObjectMeta.DeepCopyInto` of apimachinery, on the fields kept:
the maps are rebuilt entry by entry when not nil. -/
def ObjectMeta.DeepCopy (m : ObjectMeta) : ObjectMeta :=
  { m with
    Labels := m.Labels.map (copyElements (fun kv => (kv.1, kv.2))),
    Annotations := m.Annotations.map (copyElements (fun kv => (kv.1, kv.2))) }

/-- The method `RawExtension.DeepCopyInto` of apimachinery: the bytes are copied
when not nil. -/
def RawExtension.DeepCopy (e : RawExtension) : RawExtension :=
  { Raw := e.Raw.map (copyElements (fun b => b)) }

/-- The method `CollectionResourceType.DeepCopyInto`: `*out = *in`. -/
def CollectionResourceType.DeepCopy (t : CollectionResourceType) : CollectionResourceType :=
  t

/-- The methods `CollectionResource.DeepCopyInto` and `DeepCopy` on a non-nil
receiver: `*out = *in`, then the type meta is assigned, the object meta is
deep-copied, and each slice that is not nil is replaced by a fresh one
(`copy` for the resource types, element-wise `DeepCopyInto` for the items). -/
def CollectionResource.DeepCopy (c : CollectionResource) : CollectionResource :=
  let out := c
  let out := { out with TypeMeta := c.TypeMeta }
  let out := { out with ObjectMeta := c.ObjectMeta.DeepCopy }
  let out :=
    match c.ResourceTypes with
    | some types => { out with ResourceTypes := some (copyElements (fun t => t) types) }
    | none => out
  match c.Items with
  | some items => { out with Items := some (copyElements RawExtension.DeepCopy items) }
  | none => out

/-- The static registry `collectionResources` of `storage.go`. -/
def collectionResources : GoMap String CollectionResource :=
  [("workloads",
    { TypeMeta := { Kind := "", APIVersion := "" },
      ObjectMeta :=
        { Name := "workloads", Namespace := "", UID := "", ResourceVersion := "",
          Labels := none, Annotations := none },
      ResourceTypes := some
        [{ Group := "apps", Version := "", Resource := "deployments" },
         { Group := "apps", Version := "", Resource := "daemonsets" },
         { Group := "apps", Version := "", Resource := "statefulsets" }],
      Items := none })]

/-- The struct `CollectionResourceStorage`, as `NewCollectionResourceStorage`
fills it. -/
structure CollectionResourceStorage where
  db : DB
  collectionResource : CollectionResource
  deriving DecidableEq, Repr

/-- The method `StorageFactory.NewCollectionResourceStorage` on a non-nil `cr`:
the adapter, or the error (its message) with a nil adapter. -/
def StorageFactory.NewCollectionResourceStorage (s : StorageFactory) (cr : CollectionResource) :
    Except String CollectionResourceStorage :=
  match GoMap.get? collectionResources cr.ObjectMeta.Name with
  | none => Except.error ("not support collection resource: " ++ cr.ObjectMeta.Name)
  | some _ => Except.ok { db := s.db, collectionResource := cr.DeepCopy }

/-- The method `StorageFactory.GetCollectionResources`: the loop ranges over the
registry and appends a deep copy of each definition; the slice is returned
with a nil error. The entries are visited in the order of the registry (with
its single entry the order of the range does not matter). -/
def StorageFactory.GetCollectionResources (_s : StorageFactory) :
    List CollectionResource × Option StorageError :=
  (collectionResources.foldl (fun crs entry => crs ++ [entry.2.DeepCopy]) [], none)

/-! ## Concrete handlers, requests and stores -/

/-- A handler for which every kind is enabled and served as the cluster-scoped
resource `nodes`. -/
def nodesHandler : ResourceHandler :=
  { minRequestTimeout := 1800,
    ResourceEnabled := fun _ _ => true,
    GetRESTResourceInfo := fun _ =>
      { APIResource := { Name := "nodes", Namespaced := false }, RequestScope := 1, Storage := 2 },
    Empty := fun info => info.APIResource.Name = "" }

/-- A handler for which every kind is enabled but no REST info is registered. -/
def emptyInfoHandler : ResourceHandler :=
  { nodesHandler with
    GetRESTResourceInfo := fun _ =>
      { APIResource := { Name := "", Namespaced := false }, RequestScope := 0, Storage := 0 } }

/-- A handler for which no kind is enabled. -/
def disabledHandler : ResourceHandler :=
  { nodesHandler with ResourceEnabled := fun _ _ => false }

/-- A resource request on `v1/nodes` of the given cluster, namespace and verb. -/
def nodesRequest (cluster ns verb : String) : Request :=
  { requestInfo := some
      { IsResourceRequest := true, Verb := verb, APIGroup := "", APIVersion := "v1",
        Namespace := ns, Resource := "nodes" },
    clusterName := cluster }

/-- A record of the given kind, cluster, namespace, name and resource version. -/
def mkRecord (id : Nat) (group version resource cluster ns name rv : String) : Resource :=
  { Resource.zero with
    ID := id, Group := group, Version := version, Resource := resource, Cluster := cluster,
    Namespace := ns, Name := name, ResourceVersion := rv }

/-- A factory over a healthy database holding the given records. -/
def factoryOf (rows : List Resource) : StorageFactory :=
  { db := { rows := rows, fault := none } }

/-- A store with a deployment in each of the clusters `c1` and `c2`. -/
def twoClusterStore : List Resource :=
  [mkRecord 1 "apps" "v1" "deployments" "c1" "default" "web" "100",
   mkRecord 2 "apps" "v1" "deployments" "c2" "default" "web" "7"]

/-- A store of cluster `c1` with an event of the core group and an event of the
group `events.k8s.io`, both of version `v1`. -/
def eventsStore : List Resource :=
  [mkRecord 1 "" "v1" "events" "c1" "default" "e1" "10",
   mkRecord 2 "events.k8s.io" "v1" "events" "c1" "default" "e1" "11"]

/-- A collection definition of the given name with one resource type. -/
def collectionNamed (name : String) : CollectionResource :=
  { TypeMeta := { Kind := "CollectionResource", APIVersion := "pedia.clusterpedia.io/v1alpha1" },
    ObjectMeta :=
      { Name := name, Namespace := "", UID := "", ResourceVersion := "",
        Labels := some [("team", "a")], Annotations := none },
    ResourceTypes := some [{ Group := "apps", Version := "v1", Resource := "deployments" }],
    Items := some [{ Raw := some [123, 125] }, { Raw := none }] }

/-- The read `m[gvr][key]` of a cursor map with its presence flag. -/
def cursorLookup (m : GoMap GroupVersionResource (GoMap String String))
    (gvr : GroupVersionResource) (key : String) : Option String :=
  match GoMap.get? m gvr with
  | some versions => GoMap.get? versions key
  | none => none

/-- The record is filed under `gvr` and `key` by `GetResourceVersions`. -/
def filedUnder (gvr : GroupVersionResource) (key : String) (resource : Resource) : Bool :=
  decide (resource.GroupVersionResource = gvr) && decide (cursorKey resource = key)

/-- The resource version of the last record of the list filed under `gvr` and
`key`, if there is one. -/
def lastVersion (gvr : GroupVersionResource) (key : String) : List Resource → Option String
  | [] => none
  | resource :: rest =>
    match lastVersion gvr key rest with
    | some rv => some rv
    | none => if filedUnder gvr key resource then some resource.ResourceVersion else none

/-- A store of cluster `c1` in which a cluster-scoped record named `a/b` and a
record `b` of the namespace `a` have the same kind. -/
def slashStore : List Resource :=
  [mkRecord 1 "" "v1" "configmaps" "c1" "" "a/b" "1",
   mkRecord 2 "" "v1" "configmaps" "c1" "a" "b" "2"]

/-- The number of entries of the inner map `m[gvr]`, none when the kind is
absent from `m`. -/
def innerLength (m : GoMap GroupVersionResource (GoMap String String))
    (gvr : GroupVersionResource) : Nat :=
  match GoMap.get? m gvr with
  | some versions => versions.length
  | none => 0

/-! # Properties -/

/-! ## The routing handler -/

/-- Past the three guards (kind enabled, REST info found, scoping accepted)
`ServeHTTP` is the verb switch followed by the call of the chosen handler. -/
theorem ServeHTTP_of_guards (r : ResourceHandler) (req : Request) (info : RequestInfo)
    (hinfo : req.requestInfo = some info) (hres : info.IsResourceRequest = true)
    (hen : r.ResourceEnabled req.clusterName info.gvr = true)
    (hne : r.Empty (r.GetRESTResourceInfo info.gvr) = false)
    (hscope : ¬ (info.Namespace ≠ "" ∧
      (r.GetRESTResourceInfo info.gvr).APIResource.Namespaced = false)) :
    r.ServeHTTP req =
      match verbSwitch r req.clusterName info.gvr info.Verb (r.GetRESTResourceInfo info.gvr) with
      | Except.error trace => trace
      | Except.ok (trace, none) => trace
      | Except.ok (trace, some handler) => trace ++ [handler] := by
  simp only [RequestInfo.gvr] at hen hne hscope ⊢
  by_cases hns : info.Namespace = ""
  · simp [ResourceHandler.ServeHTTP, hinfo, hres, hen, hne, hns]
  · have hN : (r.GetRESTResourceInfo ⟨info.APIGroup, info.APIVersion,
        info.Resource⟩).APIResource.Namespaced = true := by
      by_contra h
      exact hscope ⟨hns, by simpa using h⟩
    simp [ResourceHandler.ServeHTTP, hinfo, hres, hen, hne, hns, hN]

/-- No verb other than `get` and `list` makes the switch choose a handler,
and `get` without a cluster returns before choosing one. -/
theorem ServeHTTP_storage_free (r : ResourceHandler) (req : Request) (info : RequestInfo)
    (hinfo : req.requestInfo = some info)
    (hverb : (info.Verb ≠ "get" ∧ info.Verb ≠ "list") ∨
      (info.Verb = "get" ∧ req.clusterName = "")) :
    ∀ e ∈ r.ServeHTTP req, e.isStorage = false := by
  simp only [ResourceHandler.ServeHTTP, hinfo]
  rcases hverb with ⟨h1, h2⟩ | ⟨h1, h2⟩
  · simp only [verbSwitch, h1, h2, if_false]
    intro e he
    split_ifs at he <;> simp at he <;> subst he <;> rfl
  · simp only [verbSwitch, h1, h2, if_true]
    intro e he
    split_ifs at he <;> simp at he <;> subst he <;> rfl

/-- C1 (routing fallthrough): a resource request whose kind is not enabled for
the requested cluster is handed to the pass-through delegate and to nothing
else, whatever its verb and namespace; no storage-backed handler and no error
response occur in the trace. -/
theorem routing_fallthrough (r : ResourceHandler) (req : Request) (info : RequestInfo)
    (hinfo : req.requestInfo = some info) (hres : info.IsResourceRequest = true)
    (hdis : r.ResourceEnabled req.clusterName info.gvr = false) :
    r.ServeHTTP req = [Effect.delegate] ∧
      ∀ e ∈ r.ServeHTTP req, e.isStorage = false ∧ e.isError = false := by
  have h : r.ServeHTTP req = [Effect.delegate] := by
    simp only [RequestInfo.gvr] at hdis
    simp [ResourceHandler.ServeHTTP, hinfo, hres, hdis]
  rw [h]
  simp [Effect.isStorage, Effect.isError]

/-- Witness of C1: a `delete` in a namespace on a kind that is not enabled. -/
theorem routing_fallthrough_witness :
    disabledHandler.ServeHTTP (nodesRequest "c1" "ns" "delete") = [Effect.delegate] ∧
      ∀ e ∈ disabledHandler.ServeHTTP (nodesRequest "c1" "ns" "delete"),
        e.isStorage = false ∧ e.isError = false :=
  routing_fallthrough disabledHandler (nodesRequest "c1" "ns" "delete") _ rfl rfl rfl

/-- Counterexample to C2 as stated: on an enabled kind, a `create` that names a namespace
for the cluster-scoped `nodes` goes to the delegate, and a `create`
on a kind without REST info gets an internal error; neither gets the
method-not-supported error. -/
theorem verb_restriction_as_stated_fails :
    (nodesHandler.ResourceEnabled "c1" ⟨"", "v1", "nodes"⟩ = true ∧
      "create" ≠ "get" ∧ "create" ≠ "list" ∧
      nodesHandler.ServeHTTP (nodesRequest "c1" "ns" "create") = [Effect.delegate] ∧
      nodesHandler.ServeHTTP (nodesRequest "c1" "ns" "create") ≠
        [Effect.methodNotSupported ⟨"", "nodes"⟩ "create" ⟨"", "v1"⟩]) ∧
    (emptyInfoHandler.ResourceEnabled "c1" ⟨"", "v1", "nodes"⟩ = true ∧
      emptyInfoHandler.ServeHTTP (nodesRequest "c1" "" "create") =
        [Effect.internalError "not found request scope or resource storage" ⟨"", "v1"⟩] ∧
      emptyInfoHandler.ServeHTTP (nodesRequest "c1" "" "create") ≠
        [Effect.methodNotSupported ⟨"", "nodes"⟩ "create" ⟨"", "v1"⟩]) := by
  decide

/-- C2, amended (verb restriction): on a resource request whose verb is neither
`get` nor `list` no storage-backed handler is ever invoked; and when the kind
is enabled for the requested cluster, its REST info is found and the namespace
scoping is accepted, the only effect is the method-not-supported
error tagged with the group/resource of the kind and the verb. -/
theorem verb_restriction (r : ResourceHandler) (req : Request) (info : RequestInfo)
    (hinfo : req.requestInfo = some info) (hres : info.IsResourceRequest = true)
    (hen : r.ResourceEnabled req.clusterName info.gvr = true)
    (hget : info.Verb ≠ "get") (hlist : info.Verb ≠ "list") :
    (∀ e ∈ r.ServeHTTP req, e.isStorage = false) ∧
    (r.Empty (r.GetRESTResourceInfo info.gvr) = false →
      ¬ (info.Namespace ≠ "" ∧
        (r.GetRESTResourceInfo info.gvr).APIResource.Namespaced = false) →
      r.ServeHTTP req =
        [Effect.methodNotSupported info.gvr.GroupResource info.Verb info.gvr.GroupVersion]) := by
  refine ⟨ServeHTTP_storage_free r req info hinfo (Or.inl ⟨hget, hlist⟩), ?_⟩
  intro hne hscope
  rw [ServeHTTP_of_guards r req info hinfo hres hen hne hscope]
  simp [verbSwitch, hget, hlist]

/-- Witness of C2: a `create` on `v1/nodes` without a namespace. -/
theorem verb_restriction_witness :
    (∀ e ∈ nodesHandler.ServeHTTP (nodesRequest "c1" "" "create"), e.isStorage = false) ∧
    nodesHandler.ServeHTTP (nodesRequest "c1" "" "create") =
      [Effect.methodNotSupported ⟨"", "nodes"⟩ "create" ⟨"", "v1"⟩] :=
  have h := verb_restriction nodesHandler (nodesRequest "c1" "" "create") _ rfl rfl rfl
    (by decide) (by decide)
  ⟨h.1, h.2 (by decide) (by decide)⟩

/-- C3 (unscoped get): a resource request with verb `get` and an empty cluster
name never reaches the storage-backed get handler (nor any storage-backed
handler); when it reaches the verb switch (kind enabled, REST info found, namespace
scoping accepted) it is handed to the pass-through delegate and to
nothing else. -/
theorem unscoped_get_delegated (r : ResourceHandler) (req : Request) (info : RequestInfo)
    (hinfo : req.requestInfo = some info) (hres : info.IsResourceRequest = true)
    (hverb : info.Verb = "get") (hcluster : req.clusterName = "") :
    (∀ storage reqScope, Effect.getResource storage reqScope ∉ r.ServeHTTP req) ∧
    (∀ e ∈ r.ServeHTTP req, e.isStorage = false) ∧
    (r.ResourceEnabled req.clusterName info.gvr = true →
      r.Empty (r.GetRESTResourceInfo info.gvr) = false →
      ¬ (info.Namespace ≠ "" ∧
        (r.GetRESTResourceInfo info.gvr).APIResource.Namespaced = false) →
      r.ServeHTTP req = [Effect.delegate]) := by
  have hfree := ServeHTTP_storage_free r req info hinfo (Or.inr ⟨hverb, hcluster⟩)
  refine ⟨?_, hfree, ?_⟩
  · intro storage reqScope hmem
    have := hfree _ hmem
    simp [Effect.isStorage] at this
  · intro hen hne hscope
    rw [ServeHTTP_of_guards r req info hinfo hres hen hne hscope]
    simp [verbSwitch, hverb, hcluster]

/-- Witness of C3: a `get` of a node with no cluster named. -/
theorem unscoped_get_delegated_witness :
    (∀ storage reqScope,
      Effect.getResource storage reqScope ∉ nodesHandler.ServeHTTP (nodesRequest "" "" "get")) ∧
    (∀ e ∈ nodesHandler.ServeHTTP (nodesRequest "" "" "get"), e.isStorage = false) ∧
    nodesHandler.ServeHTTP (nodesRequest "" "" "get") = [Effect.delegate] :=
  have h := unscoped_get_delegated nodesHandler (nodesRequest "" "" "get") _ rfl rfl rfl rfl
  ⟨h.1, h.2.1, h.2.2 rfl (by decide) (by decide)⟩

/-- C4 (storage-backed serving): on a resource request whose kind is enabled
for the requested cluster, whose REST info is found and whose namespace
scoping is accepted, the trace is exactly one handler: the storage-backed list
handler built with the `minRequestTimeout` of the receiver when the verb is
`list`, the storage-backed get handler when the verb is `get` and a cluster is
named; so neither the delegate nor an error response occurs. -/
theorem storage_backed_serving (r : ResourceHandler) (req : Request) (info : RequestInfo)
    (hinfo : req.requestInfo = some info) (hres : info.IsResourceRequest = true)
    (hen : r.ResourceEnabled req.clusterName info.gvr = true)
    (hne : r.Empty (r.GetRESTResourceInfo info.gvr) = false)
    (hscope : ¬ (info.Namespace ≠ "" ∧
      (r.GetRESTResourceInfo info.gvr).APIResource.Namespaced = false)) :
    (info.Verb = "list" → r.ServeHTTP req =
      [Effect.listResource (r.GetRESTResourceInfo info.gvr).Storage
        (r.GetRESTResourceInfo info.gvr).RequestScope r.minRequestTimeout]) ∧
    (info.Verb = "get" → req.clusterName ≠ "" → r.ServeHTTP req =
      [Effect.getResource (r.GetRESTResourceInfo info.gvr).Storage
        (r.GetRESTResourceInfo info.gvr).RequestScope]) ∧
    ((info.Verb = "list" ∨ (info.Verb = "get" ∧ req.clusterName ≠ "")) →
      (r.ServeHTTP req).length = 1 ∧
      ∀ e ∈ r.ServeHTTP req, e.isStorage = true ∧ e.isError = false ∧ e ≠ Effect.delegate) := by
  rw [ServeHTTP_of_guards r req info hinfo hres hen hne hscope]
  refine ⟨?_, ?_, ?_⟩
  · intro hv
    simp [verbSwitch, hv]
  · intro hv hc
    simp [verbSwitch, hv, hc]
  · rintro (hv | ⟨hv, hc⟩)
    · simp [verbSwitch, hv, Effect.isStorage, Effect.isError]
    · simp [verbSwitch, hv, hc, Effect.isStorage, Effect.isError]

/-- Witness of C4: a `list` of nodes, and a `get` of a node of cluster `c1`. -/
theorem storage_backed_serving_witness :
    nodesHandler.ServeHTTP (nodesRequest "" "" "list") = [Effect.listResource 2 1 1800] ∧
    nodesHandler.ServeHTTP (nodesRequest "c1" "" "get") = [Effect.getResource 2 1] :=
  ⟨(storage_backed_serving nodesHandler (nodesRequest "" "" "list") _ rfl rfl rfl
      (by decide) (by decide)).1 rfl,
    (storage_backed_serving nodesHandler (nodesRequest "c1" "" "get") _ rfl rfl rfl
      (by decide) (by decide)).2.1 rfl (by decide)⟩

/-- C10 (namespace-scoping mismatch): on a resource request whose kind is
enabled for the requested cluster and whose REST info is found, a non-empty namespace
on a cluster-scoped resource sends the request to the pass-through
delegate and to nothing else, for every verb: no storage-backed handler and
no method-not-supported error occurs. -/
theorem scoping_mismatch_delegated (r : ResourceHandler) (req : Request) (info : RequestInfo)
    (hinfo : req.requestInfo = some info) (hres : info.IsResourceRequest = true)
    (hen : r.ResourceEnabled req.clusterName info.gvr = true)
    (hne : r.Empty (r.GetRESTResourceInfo info.gvr) = false)
    (hns : info.Namespace ≠ "")
    (hscoped : (r.GetRESTResourceInfo info.gvr).APIResource.Namespaced = false) :
    r.ServeHTTP req = [Effect.delegate] ∧
      ∀ e ∈ r.ServeHTTP req, e.isStorage = false ∧ e.isError = false := by
  have h : r.ServeHTTP req = [Effect.delegate] := by
    simp only [RequestInfo.gvr] at hen hne hscoped
    simp [ResourceHandler.ServeHTTP, hinfo, hres, hen, hne, hns, hscoped]
  rw [h]
  simp [Effect.isStorage, Effect.isError]

/-- Witness of C10: a `list` of nodes in the namespace `ns` of cluster `c1`. -/
theorem scoping_mismatch_delegated_witness :
    nodesHandler.ServeHTTP (nodesRequest "c1" "ns" "list") = [Effect.delegate] ∧
      ∀ e ∈ nodesHandler.ServeHTTP (nodesRequest "c1" "ns" "list"),
        e.isStorage = false ∧ e.isError = false :=
  scoping_mismatch_delegated nodesHandler (nodesRequest "c1" "ns" "list") _ rfl rfl rfl
    (by decide) (by decide) rfl

/-! ## The storage factory: purge -/

/-- A condition struct that sets the cluster is empty only for the empty name. -/
theorem whereEmpty_cluster (c : String) :
    whereEmpty { Resource.zero with Cluster := c } = decide (c = "") := by
  simp [whereEmpty, Resource.zero]

/-- A condition struct that sets only a non-empty cluster selects by cluster. -/
theorem whereStruct_cluster (c : String) (hc : c ≠ "") (row : Resource) :
    whereStruct { Resource.zero with Cluster := c } row = decide (row.Cluster = c) := by
  simp [whereStruct, Resource.zero, hc]

/-- C5 (purge isolation): when `CleanCluster c` returns no error, the records
left are exactly the former records whose cluster is not `c`, in their order:
no record of `c` is left, and every record of another cluster is still there,
unchanged. -/
theorem purge_isolation (f : StorageFactory) (c : String)
    (hok : (f.CleanCluster c).2 = none) :
    (f.CleanCluster c).1.db.rows = f.db.rows.filter (fun row => decide (row.Cluster ≠ c)) ∧
    (∀ row ∈ (f.CleanCluster c).1.db.rows, row.Cluster ≠ c) ∧
    (∀ row ∈ f.db.rows, row.Cluster ≠ c → row ∈ (f.CleanCluster c).1.db.rows) := by
  have hrows : (f.CleanCluster c).1.db.rows =
      f.db.rows.filter (fun row => decide (row.Cluster ≠ c)) := by
    by_cases hc : c = ""
    · simp [StorageFactory.CleanCluster, DB.WhereDelete, whereEmpty_cluster, hc,
        InterpreError] at hok
    · cases hf : f.db.fault with
      | some msg =>
        simp [StorageFactory.CleanCluster, DB.WhereDelete, whereEmpty_cluster, hc, hf,
          InterpreError] at hok
      | none =>
        simp only [StorageFactory.CleanCluster, DB.WhereDelete, whereEmpty_cluster, hc, hf,
          decide_False, Bool.false_eq_true, if_false]
        apply List.filter_congr
        intro row _
        simp [whereStruct_cluster c hc]
  rw [hrows]
  refine ⟨rfl, ?_, ?_⟩
  · intro row hrow
    simpa using (List.mem_filter.mp hrow).2
  · intro row hrow hne
    exact List.mem_filter.mpr ⟨hrow, by simpa using hne⟩

/-- Witness of C5: purging `c1` from a store that holds `c1` and `c2`. -/
theorem purge_isolation_witness :
    ((factoryOf twoClusterStore).CleanCluster "c1").2 = none ∧
    ((factoryOf twoClusterStore).CleanCluster "c1").1.db.rows =
      [mkRecord 2 "apps" "v1" "deployments" "c2" "default" "web" "7"] :=
  ⟨by decide, (purge_isolation (factoryOf twoClusterStore) "c1" (by decide)).1.trans (by decide)⟩

/-- C6, the code at the failing input: purging the core-group kind `v1/events`
of cluster `c1` returns no error and also removes the `events.k8s.io/v1`
event of that cluster, whose group is not the one asked for. -/
theorem purge_kind_core_group_removes_other_group :
    ((factoryOf eventsStore).CleanClusterResource "c1" ⟨"", "v1", "events"⟩).2 = none ∧
    ((factoryOf eventsStore).CleanClusterResource "c1" ⟨"", "v1", "events"⟩).1.db.rows = [] ∧
    mkRecord 2 "events.k8s.io" "v1" "events" "c1" "default" "e1" "11" ∈ eventsStore ∧
    (mkRecord 2 "events.k8s.io" "v1" "events" "c1" "default" "e1" "11").Group ≠ "" := by
  decide

/-! ## The unique index -/

/-- The tags put six columns in the unique index. -/
theorem indexColumns_unique :
    Resource.indexColumns "uni_group_version_resource_cluster_namespace_name" =
      ["group", "version", "resource", "cluster", "namespace", "name"] := by
  decide

/-- The key of a record is its values in the six columns. -/
theorem uniqueIndexKey_eq (res : Resource) :
    res.uniqueIndexKey =
      [ColumnValue.text res.Group, ColumnValue.text res.Version, ColumnValue.text res.Resource,
       ColumnValue.text res.Cluster, ColumnValue.text res.Namespace,
       ColumnValue.text res.Name] := by
  simp [Resource.uniqueIndexKey, indexColumns_unique, Resource.columnValue]

/-- C8 (identity uniqueness): the unique index
`uni_group_version_resource_cluster_namespace_name` that the tags of `Resource`
declare has the columns group, version, resource, cluster, namespace and name
and no other, so it identifies a record by that tuple: two records collide
exactly when they agree on all six fields. Records that differ in one of the
six, in particular only in the cluster, or in the kind (group, version,
resource) with cluster, namespace and name shared, never collide; records
equal on all six always collide, whatever their other fields. -/
theorem index_identity :
    Resource.indexColumns "uni_group_version_resource_cluster_namespace_name" =
      ["group", "version", "resource", "cluster", "namespace", "name"] ∧
    (∀ a b : Resource, a.uniqueIndexKey = b.uniqueIndexKey ↔ a.identity = b.identity) ∧
    (∀ a b : Resource, a.Cluster ≠ b.Cluster → a.uniqueIndexKey ≠ b.uniqueIndexKey) ∧
    (∀ a b : Resource, a.GroupVersionResource ≠ b.GroupVersionResource →
      a.uniqueIndexKey ≠ b.uniqueIndexKey) ∧
    (∀ a b : Resource, a.Namespace ≠ b.Namespace ∨ a.Name ≠ b.Name →
      a.uniqueIndexKey ≠ b.uniqueIndexKey) := by
  have hiff : ∀ a b : Resource,
      a.uniqueIndexKey = b.uniqueIndexKey ↔ a.identity = b.identity := by
    intro a b
    simp [uniqueIndexKey_eq, Resource.identity]
  refine ⟨indexColumns_unique, hiff, ?_, ?_, ?_⟩
  · intro a b hne hkey
    have hid := (hiff a b).mp hkey
    simp only [Resource.identity, Prod.mk.injEq] at hid
    exact hne hid.2.2.2.1
  · intro a b hne hkey
    have hid := (hiff a b).mp hkey
    simp only [Resource.identity, Prod.mk.injEq] at hid
    apply hne
    simp [Resource.GroupVersionResource, hid.1, hid.2.1, hid.2.2.1]
  · intro a b hne hkey
    have hid := (hiff a b).mp hkey
    simp only [Resource.identity, Prod.mk.injEq] at hid
    rcases hne with h | h
    · exact h hid.2.2.2.2.1
    · exact h hid.2.2.2.2.2

/-- Witness of C8: the same deployment in the clusters `c1` and `c2` does not
collide; a deployment and a stateful set of one cluster, namespace and name
do not collide; and two records of the same identity collide although their
row identifiers and resource versions differ. -/
theorem index_identity_witness :
    (mkRecord 1 "apps" "v1" "deployments" "c1" "default" "web" "100").uniqueIndexKey ≠
      (mkRecord 2 "apps" "v1" "deployments" "c2" "default" "web" "7").uniqueIndexKey ∧
    (mkRecord 1 "apps" "v1" "deployments" "c1" "default" "web" "100").uniqueIndexKey ≠
      (mkRecord 2 "apps" "v1" "statefulsets" "c1" "default" "web" "100").uniqueIndexKey ∧
    (mkRecord 1 "apps" "v1" "deployments" "c1" "default" "web" "100").uniqueIndexKey =
      (mkRecord 2 "apps" "v1" "deployments" "c1" "default" "web" "105").uniqueIndexKey :=
  ⟨index_identity.2.2.1 _ _ (by decide),
    index_identity.2.2.2.1 _ _ (by decide),
    (index_identity.2.1 _ _).mpr (by decide)⟩

/-! ## Collection resources -/

/-- Copying element by element with a function that returns its argument
gives back the list. -/
theorem copyElements_eq_self {α : Type} (copy : α → α) (h : ∀ a, copy a = a) (l : List α) :
    copyElements copy l = l := by
  induction l with
  | nil => rfl
  | cons a rest ih => simp [copyElements, h, ih]

/-- A deep copy of an object meta is equal to it. -/
theorem objectMeta_DeepCopy_eq (m : ObjectMeta) : m.DeepCopy = m := by
  cases m with
  | mk n ns uid rv labels annotations =>
    cases labels <;> cases annotations <;>
      simp [ObjectMeta.DeepCopy, copyElements_eq_self]

/-- A deep copy of a raw extension is equal to it. -/
theorem rawExtension_DeepCopy_eq (e : RawExtension) : e.DeepCopy = e := by
  cases e with
  | mk raw => cases raw <;> simp [RawExtension.DeepCopy, copyElements_eq_self]

/-- A deep copy of a collection resource is equal to it. -/
theorem collectionResource_DeepCopy_eq (c : CollectionResource) : c.DeepCopy = c := by
  cases c with
  | mk tm om types items =>
    cases types <;> cases items <;>
      simp [CollectionResource.DeepCopy, objectMeta_DeepCopy_eq, copyElements_eq_self,
        rawExtension_DeepCopy_eq]

/-- C9 (unsupported collection): `NewCollectionResourceStorage cr` returns an
error, and then no adapter, exactly when the name of `cr` is not a key of the
static registry; the only key is `workloads`; and for a registered name it
returns, without error, the adapter over the database of the factory that
holds a copy equal to `cr`. -/
theorem unsupported_collection (s : StorageFactory) (cr : CollectionResource) :
    ((∃ msg, s.NewCollectionResourceStorage cr = Except.error msg) ↔
      GoMap.get? collectionResources cr.ObjectMeta.Name = none) ∧
    (GoMap.get? collectionResources cr.ObjectMeta.Name = none ↔
      cr.ObjectMeta.Name ≠ "workloads") ∧
    (cr.ObjectMeta.Name = "workloads" →
      s.NewCollectionResourceStorage cr =
        Except.ok { db := s.db, collectionResource := cr }) := by
  have hkey : GoMap.get? collectionResources cr.ObjectMeta.Name = none ↔
      cr.ObjectMeta.Name ≠ "workloads" := by
    simp only [collectionResources, GoMap.get?]
    split_ifs with h
    · simp [h]
    · simp only [true_iff]
      exact fun h2 => h h2.symm
  refine ⟨?_, hkey, ?_⟩
  · simp only [StorageFactory.NewCollectionResourceStorage]
    cases hget : GoMap.get? collectionResources cr.ObjectMeta.Name with
    | none => simp
    | some v => simp
  · intro hname
    have hsome : GoMap.get? collectionResources cr.ObjectMeta.Name ≠ none := by
      rw [Ne, hkey]; simp [hname]
    simp only [StorageFactory.NewCollectionResourceStorage]
    cases hget : GoMap.get? collectionResources cr.ObjectMeta.Name with
    | none => exact absurd hget hsome
    | some v => simp [collectionResource_DeepCopy_eq]

/-- Witness of C9: a definition named `workloads` is accepted and copied, one
named `nodes` is refused. -/
theorem unsupported_collection_witness :
    (factoryOf []).NewCollectionResourceStorage (collectionNamed "workloads") =
      Except.ok { db := { rows := [], fault := none },
                  collectionResource := collectionNamed "workloads" } ∧
    ∃ msg, (factoryOf []).NewCollectionResourceStorage (collectionNamed "nodes") =
      Except.error msg :=
  ⟨(unsupported_collection (factoryOf []) (collectionNamed "workloads")).2.2 rfl,
    (unsupported_collection (factoryOf []) (collectionNamed "nodes")).1.mpr (by decide)⟩

/-! ## Go maps -/

/-- Reading a map after an assignment. -/
theorem GoMap.get?_set {κ ν : Type} [DecidableEq κ] (m : GoMap κ ν) (k k' : κ) (v : ν) :
    GoMap.get? (GoMap.set m k v) k' = if k = k' then some v else GoMap.get? m k' := by
  induction m with
  | nil => simp [GoMap.set, GoMap.get?]
  | cons p rest ih =>
    obtain ⟨k0, v0⟩ := p
    by_cases h0 : k0 = k
    · subst h0
      by_cases h1 : k0 = k' <;> simp [GoMap.set, GoMap.get?, h1]
    · by_cases h1 : k0 = k'
      · subst h1
        simp [GoMap.set, GoMap.get?, h0, Ne.symm h0]
      · simp [GoMap.set, GoMap.get?, h0, h1, ih]

/-- A value read from a map is the value of one of its entries. -/
theorem GoMap.mem_of_get? {κ ν : Type} [DecidableEq κ] (m : GoMap κ ν) (k : κ) (v : ν)
    (h : GoMap.get? m k = some v) : (k, v) ∈ m := by
  induction m with
  | nil => simp [GoMap.get?] at h
  | cons p rest ih =>
    obtain ⟨k0, v0⟩ := p
    by_cases h0 : k0 = k
    · subst h0
      simp [GoMap.get?] at h
      simp [h]
    · simp [GoMap.get?, h0] at h
      exact List.mem_cons_of_mem _ (ih h)

/-- A map is not empty after an assignment. -/
theorem GoMap.set_ne_nil {κ ν : Type} [DecidableEq κ] (m : GoMap κ ν) (k : κ) (v : ν) :
    GoMap.set m k v ≠ [] := by
  cases m with
  | nil => simp [GoMap.set]
  | cons p rest =>
    obtain ⟨k0, v0⟩ := p
    by_cases h0 : k0 = k <;> simp [GoMap.set, h0]

/-! ## The storage factory: resource versions -/

/-- One turn of the loop changes the entry of the record and no other. -/
theorem cursorLookup_cursorStep (m : GoMap GroupVersionResource (GoMap String String))
    (resource : Resource) (gvr : GroupVersionResource) (key : String) :
    cursorLookup (cursorStep m resource) gvr key =
      if filedUnder gvr key resource then some resource.ResourceVersion
      else cursorLookup m gvr key := by
  simp only [cursorLookup, cursorStep, GoMap.get?_set, filedUnder]
  by_cases hg : resource.GroupVersionResource = gvr
  · subst hg
    by_cases hk : cursorKey resource = key
    · simp [hk, GoMap.get?_set]
    · cases hget : GoMap.get? m resource.GroupVersionResource <;>
        simp [hk, GoMap.get?, GoMap.set, GoMap.get?_set]
  · simp [hg]

/-- The loop leaves under `gvr` and `key` the version of the last record filed
there, or what the map held before. -/
theorem cursorLookup_foldl (rows : List Resource)
    (m : GoMap GroupVersionResource (GoMap String String))
    (gvr : GroupVersionResource) (key : String) :
    cursorLookup (rows.foldl cursorStep m) gvr key =
      match lastVersion gvr key rows with
      | some rv => some rv
      | none => cursorLookup m gvr key := by
  induction rows generalizing m with
  | nil => simp [lastVersion]
  | cons resource rest ih =>
    simp only [List.foldl_cons, ih, lastVersion, cursorLookup_cursorStep]
    cases lastVersion gvr key rest with
    | some rv => simp
    | none =>
      by_cases hf : filedUnder gvr key resource = true
      · simp [hf]
      · simp [hf]

/-- When no two records of the list are filed under the same kind and key, the
last version under `gvr` and `key` is that of the record filed there. -/
theorem lastVersion_eq_some_iff (gvr : GroupVersionResource) (key : String)
    (rows : List Resource)
    (hdistinct : rows.Pairwise (fun a b =>
      ¬ (a.GroupVersionResource = b.GroupVersionResource ∧ cursorKey a = cursorKey b)))
    (rv : String) :
    lastVersion gvr key rows = some rv ↔
      ∃ resource ∈ rows, filedUnder gvr key resource = true ∧ resource.ResourceVersion = rv := by
  induction rows generalizing rv with
  | nil => simp [lastVersion]
  | cons resource rest ih =>
    rw [List.pairwise_cons] at hdistinct
    have ih := ih hdistinct.2
    simp only [lastVersion, List.mem_cons, exists_eq_or_imp]
    cases hlast : lastVersion gvr key rest with
    | some rv' =>
      obtain ⟨other, hmem, hfiled, hrv⟩ := (ih rv').mp hlast
      constructor
      · intro h
        simp only [Option.some.injEq] at h
        exact Or.inr ⟨other, hmem, hfiled, hrv.trans h⟩
      · rintro (⟨hres, -⟩ | hex)
        · exfalso
          simp only [filedUnder, Bool.and_eq_true, decide_eq_true_eq] at hres hfiled
          exact hdistinct.1 other hmem ⟨hres.1.trans hfiled.1.symm, hres.2.trans hfiled.2.symm⟩
        · have h2 := (ih rv).mpr hex
          rw [hlast] at h2
          exact h2
    | none =>
      have hnone : ¬ ∃ resource ∈ rest, filedUnder gvr key resource = true ∧
          resource.ResourceVersion = rv := by
        intro hex
        have := (ih rv).mpr hex
        rw [hlast] at this
        exact Option.noConfusion this
      by_cases hf : filedUnder gvr key resource = true
      · simp [hf, hnone]
      · simp [hf, hnone]

/-- An entry of a map after an assignment is the assigned one or a former one. -/
theorem GoMap.mem_set {κ ν : Type} [DecidableEq κ] (m : GoMap κ ν) (k : κ) (v : ν)
    (p : κ × ν) (h : p ∈ GoMap.set m k v) : p ∈ m ∨ p = (k, v) := by
  induction m with
  | nil => simpa [GoMap.set] using h
  | cons q rest ih =>
    obtain ⟨k0, v0⟩ := q
    by_cases h0 : k0 = k
    · simp only [GoMap.set, h0, if_true, List.mem_cons] at h
      rcases h with h | h
      · exact Or.inr h
      · exact Or.inl (List.mem_cons_of_mem _ h)
    · simp only [GoMap.set, h0, if_false, List.mem_cons] at h
      rcases h with h | h
      · exact Or.inl (h ▸ List.mem_cons_self _ _)
      · rcases ih h with h | h
        · exact Or.inl (List.mem_cons_of_mem _ h)
        · exact Or.inr h

/-- The separator splits a list in one way only when it does not occur after
the split. -/
theorem append_cons_cancel {α : Type} (x : α) (l₁ l₂ s₁ s₂ : List α)
    (h₁ : x ∉ s₁) (h₂ : x ∉ s₂) (h : l₁ ++ x :: s₁ = l₂ ++ x :: s₂) :
    l₁ = l₂ ∧ s₁ = s₂ := by
  induction l₁ generalizing l₂ with
  | nil =>
    cases l₂ with
    | nil => simpa using h
    | cons y l₂ =>
      simp only [List.nil_append, List.cons_append, List.cons.injEq] at h
      exact absurd (h.2 ▸ List.mem_append_right _ (List.mem_cons_self _ _)) h₁
  | cons y l₁ ih =>
    cases l₂ with
    | nil =>
      simp only [List.nil_append, List.cons_append, List.cons.injEq] at h
      exact absurd (h.2 ▸ List.mem_append_right _ (List.mem_cons_self _ _)) h₂
    | cons z l₂ =>
      simp only [List.cons_append, List.cons.injEq] at h
      obtain ⟨hl, hs⟩ := ih l₂ h.2
      exact ⟨by rw [h.1, hl], hs⟩

/-- The key determines namespace and name among records whose names hold no
slash. -/
theorem cursorKey_injective (a b : Resource)
    (ha : '/' ∉ a.Name.data) (hb : '/' ∉ b.Name.data) (h : cursorKey a = cursorKey b) :
    a.Namespace = b.Namespace ∧ a.Name = b.Name := by
  have hdata := congrArg String.data h
  by_cases hna : a.Namespace = "" <;> by_cases hnb : b.Namespace = ""
  · simp only [cursorKey, hna, hnb, ne_eq, not_true_eq_false, if_false] at h
    exact ⟨hna.trans hnb.symm, h⟩
  · simp only [cursorKey, hna, hnb, ne_eq, not_true_eq_false, not_false_eq_true, if_true,
      if_false, String.data_append] at hdata
    exact absurd (hdata ▸ by simp) ha
  · simp only [cursorKey, hna, hnb, ne_eq, not_true_eq_false, not_false_eq_true, if_true,
      if_false, String.data_append] at hdata
    exact absurd (hdata ▸ by simp) hb
  · simp only [cursorKey, hna, hnb, ne_eq, not_false_eq_true, if_true,
      String.data_append, List.append_assoc] at hdata
    simp only [List.singleton_append] at hdata
    obtain ⟨hns, hname⟩ := append_cons_cancel '/' _ _ _ _ ha hb hdata
    exact ⟨String.ext hns, String.ext hname⟩

/-- The loop never leaves an empty inner map. -/
theorem cursor_foldl_inner_ne_nil (rows : List Resource)
    (m : GoMap GroupVersionResource (GoMap String String))
    (hm : ∀ p ∈ m, p.2 ≠ []) :
    ∀ p ∈ rows.foldl cursorStep m, p.2 ≠ [] := by
  induction rows generalizing m with
  | nil => simpa using hm
  | cons resource rest ih =>
    simp only [List.foldl_cons]
    apply ih
    intro p hp
    rcases GoMap.mem_set _ _ _ _ hp with h | h
    · exact hm p h
    · rw [h]
      exact GoMap.set_ne_nil _ _ _

/-- The selected columns keep kind, key and resource version of a record. -/
theorem selectCursorColumns_keeps (row : Resource) :
    (selectCursorColumns row).GroupVersionResource = row.GroupVersionResource ∧
    cursorKey (selectCursorColumns row) = cursorKey row ∧
    (selectCursorColumns row).ResourceVersion = row.ResourceVersion := by
  simp [selectCursorColumns, Resource.GroupVersionResource, cursorKey]

/-- With a non-empty cluster and a healthy database the query of
`GetResourceVersions` scans the records of the cluster, and the result is the
loop run over them. -/
theorem GetResourceVersions_ok (f : StorageFactory) (c : String) (hc : c ≠ "")
    (m : GoMap GroupVersionResource (GoMap String String))
    (hok : f.GetResourceVersions c = Except.ok m) :
    m = ((f.db.rows.filter (fun row => decide (row.Cluster = c))).map
      selectCursorColumns).foldl cursorStep [] := by
  have hfilter : f.db.rows.filter (fun row => whereStruct { Resource.zero with Cluster := c } row)
      = f.db.rows.filter (fun row => decide (row.Cluster = c)) :=
    List.filter_congr (fun row _ => whereStruct_cluster c hc row)
  cases hf : f.db.fault with
  | some msg =>
    simp [StorageFactory.GetResourceVersions, DB.SelectWhereFind, hf, InterpreError] at hok
  | none =>
    simp only [StorageFactory.GetResourceVersions, DB.SelectWhereFind, hf, hfilter,
      Except.ok.injEq] at hok
    exact hok.symm

/-- Counterexample to C7 as stated. With the empty cluster name the query has
no condition: the map of a store that holds only records of `c1` and `c2`
has the entry of the `c2` record, though no record has the empty cluster. And
in a store that satisfies identity uniqueness a record named `a/b` without namespace
and the record `b` of namespace `a` share the key `a/b`: the map
holds the version of the second, not that of the first. -/
theorem cursor_map_as_stated_fails :
    (twoClusterStore.Pairwise (fun a b => a.identity ≠ b.identity) ∧
      (∃ m, (factoryOf twoClusterStore).GetResourceVersions "" = Except.ok m ∧
        cursorLookup m ⟨"apps", "v1", "deployments"⟩ "default/web" = some "7") ∧
      ∀ row ∈ twoClusterStore, row.Cluster ≠ "") ∧
    (slashStore.Pairwise (fun a b => a.identity ≠ b.identity) ∧
      (∃ m, (factoryOf slashStore).GetResourceVersions "c1" = Except.ok m ∧
        cursorLookup m ⟨"", "v1", "configmaps"⟩ "a/b" = some "2") ∧
      ∃ row ∈ slashStore, row.Cluster = "c1" ∧
        row.GroupVersionResource = ⟨"", "v1", "configmaps"⟩ ∧
        row.ResourceVersion = "1" ∧ cursorKey row = "a/b") := by
  refine ⟨⟨by decide, ⟨_, rfl, by decide⟩, by decide⟩, ⟨by decide, ⟨_, rfl, by decide⟩, ?_⟩⟩
  exact ⟨mkRecord 1 "" "v1" "configmaps" "c1" "" "a/b" "1", by decide, by decide⟩

/-- C7, amended (cursor map): for a store that satisfies identity uniqueness, a
non-empty cluster `c` none of whose stored names holds a slash, and a query
that succeeds with the map `m`: `m[gvr][key] = rv` exactly when the store
holds a record of cluster `c` and kind `gvr` with resource version `rv` whose
key (the name, or `namespace/name` when the namespace is not empty) is `key`;
so records of other clusters contribute nothing; and no inner map of `m` is
empty. -/
theorem cursor_map (f : StorageFactory) (c : String) (hc : c ≠ "")
    (hunique : f.db.rows.Pairwise (fun a b => a.identity ≠ b.identity))
    (hslash : ∀ row ∈ f.db.rows, row.Cluster = c → '/' ∉ row.Name.data)
    (m : GoMap GroupVersionResource (GoMap String String))
    (hok : f.GetResourceVersions c = Except.ok m) :
    (∀ gvr key rv,
      (∃ versions, GoMap.get? m gvr = some versions ∧ GoMap.get? versions key = some rv) ↔
      ∃ row ∈ f.db.rows, row.Cluster = c ∧ row.GroupVersionResource = gvr ∧
        row.ResourceVersion = rv ∧ cursorKey row = key) ∧
    (∀ gvr versions, GoMap.get? m gvr = some versions → versions ≠ []) := by
  have hm := GetResourceVersions_ok f c hc m hok
  constructor
  · intro gvr key rv
    have hlook : (∃ versions, GoMap.get? m gvr = some versions ∧
        GoMap.get? versions key = some rv) ↔ cursorLookup m gvr key = some rv := by
      simp only [cursorLookup]
      cases GoMap.get? m gvr with
      | none => simp
      | some versions => simp
    have hdistinct : ((f.db.rows.filter (fun row => decide (row.Cluster = c))).map
        selectCursorColumns).Pairwise (fun a b =>
          ¬ (a.GroupVersionResource = b.GroupVersionResource ∧ cursorKey a = cursorKey b)) := by
      rw [List.pairwise_map]
      refine List.Pairwise.imp_of_mem ?_ (hunique.filter _)
      intro a b hamem hbmem hab hsame
      obtain ⟨ha, hac⟩ := List.mem_filter.mp hamem
      obtain ⟨hb, hbc⟩ := List.mem_filter.mp hbmem
      have hac : a.Cluster = c := by simpa using hac
      have hbc : b.Cluster = c := by simpa using hbc
      rw [(selectCursorColumns_keeps a).1, (selectCursorColumns_keeps b).1,
        (selectCursorColumns_keeps a).2.1, (selectCursorColumns_keeps b).2.1] at hsame
      obtain ⟨hns, hname⟩ :=
        cursorKey_injective a b (hslash a ha hac) (hslash b hb hbc) hsame.2
      have hgvr := hsame.1
      simp only [Resource.GroupVersionResource, GroupVersionResource.mk.injEq] at hgvr
      apply hab
      simp [Resource.identity, hgvr.1, hgvr.2.1, hgvr.2.2, hac, hbc, hns, hname]
    have hnil : ∀ last : Option String,
        (match last with
          | some rv => some rv
          | none => cursorLookup [] gvr key) = last := by
      intro last
      cases last <;> rfl
    rw [hlook, hm, cursorLookup_foldl, hnil, lastVersion_eq_some_iff gvr key _ hdistinct]
    · constructor
      · rintro ⟨resource, hmem, hfiled, hrv⟩
        obtain ⟨row, hrow, rfl⟩ := List.mem_map.mp hmem
        obtain ⟨hrow, hcl⟩ := List.mem_filter.mp hrow
        simp only [filedUnder, Bool.and_eq_true, decide_eq_true_eq,
          (selectCursorColumns_keeps row).1, (selectCursorColumns_keeps row).2.1] at hfiled
        rw [(selectCursorColumns_keeps row).2.2] at hrv
        exact ⟨row, hrow, by simpa using hcl, hfiled.1, hrv, hfiled.2⟩
      · rintro ⟨row, hrow, hcl, hgvr, hrv, hkey⟩
        refine ⟨selectCursorColumns row,
          List.mem_map.mpr ⟨row, List.mem_filter.mpr ⟨hrow, by simpa using hcl⟩, rfl⟩, ?_, ?_⟩
        · simp [filedUnder, (selectCursorColumns_keeps row).1,
            (selectCursorColumns_keeps row).2.1, hgvr, hkey]
        · rw [(selectCursorColumns_keeps row).2.2, hrv]
  · intro gvr versions hget
    have hmem := GoMap.mem_of_get? m gvr versions hget
    rw [hm] at hmem
    exact cursor_foldl_inner_ne_nil _ [] (by simp) _ hmem

/-- Witness of C7: the cursor map of `c1` over a store that holds `c1` and `c2`. -/
theorem cursor_map_witness :
    (∀ gvr key rv,
      (∃ versions, GoMap.get? [((⟨"apps", "v1", "deployments"⟩ : GroupVersionResource),
          ([("default/web", "100")] : GoMap String String))] gvr = some versions ∧
        GoMap.get? versions key = some rv) ↔
      ∃ row ∈ (factoryOf twoClusterStore).db.rows, row.Cluster = "c1" ∧
        row.GroupVersionResource = gvr ∧ row.ResourceVersion = rv ∧ cursorKey row = key) ∧
    (∀ gvr versions, GoMap.get? [((⟨"apps", "v1", "deployments"⟩ : GroupVersionResource),
        ([("default/web", "100")] : GoMap String String))] gvr = some versions →
      versions ≠ []) :=
  cursor_map (factoryOf twoClusterStore) "c1" (by decide) (by decide)
    (by decide) _ rfl

/-! ## The storage factory: the static registry -/

/-- Appending a deep copy of each entry collects the definitions themselves. -/
theorem foldl_append_DeepCopy (entries : GoMap String CollectionResource)
    (crs : List CollectionResource) :
    entries.foldl (fun crs entry => crs ++ [entry.2.DeepCopy]) crs =
      crs ++ entries.map (fun entry => entry.2) := by
  induction entries generalizing crs with
  | nil => simp
  | cons entry rest ih =>
    rw [List.foldl_cons, ih]
    simp [collectionResource_DeepCopy_eq]

/-- C11 (static registry enumeration): `GetCollectionResources` returns a nil
error and one definition per entry of the static registry, each equal to the
registered one, in the order of the registry; the result is the single
collection named `workloads` whose resource types are, in order,
apps/deployments, apps/daemonsets and apps/statefulsets; and the result does
not depend on the factory or the state of its database, so two successive
calls return equal results. -/
theorem registry_enumeration (s s' : StorageFactory) :
    s.GetCollectionResources.2 = none ∧
    s.GetCollectionResources.1 = collectionResources.map (fun entry => entry.2) ∧
    s.GetCollectionResources.1.length = collectionResources.length ∧
    s.GetCollectionResources.1.map (fun cr => cr.ObjectMeta.Name) = ["workloads"] ∧
    s.GetCollectionResources.1.map (fun cr => cr.ResourceTypes) =
      [some [{ Group := "apps", Version := "", Resource := "deployments" },
             { Group := "apps", Version := "", Resource := "daemonsets" },
             { Group := "apps", Version := "", Resource := "statefulsets" }]] ∧
    s.GetCollectionResources = s'.GetCollectionResources := by
  have h : s.GetCollectionResources.1 = collectionResources.map (fun entry => entry.2) := by
    simp [StorageFactory.GetCollectionResources, foldl_append_DeepCopy]
  refine ⟨rfl, h, ?_, ?_, ?_, rfl⟩
  · rw [h, List.length_map]
  · rw [h]; rfl
  · rw [h]; rfl

/-! ## The storage factory: the size of the cursor map -/

/-- An assignment adds an entry exactly when the key was absent. -/
theorem GoMap.length_set {κ ν : Type} [DecidableEq κ] (m : GoMap κ ν) (k : κ) (v : ν) :
    (GoMap.set m k v).length =
      match GoMap.get? m k with
      | some _ => m.length
      | none => m.length + 1 := by
  induction m with
  | nil => simp [GoMap.set, GoMap.get?]
  | cons p rest ih =>
    obtain ⟨k0, v0⟩ := p
    by_cases h0 : k0 = k
    · simp [GoMap.set, GoMap.get?, h0]
    · simp only [GoMap.set, GoMap.get?, h0, if_false, List.length_cons, ih]
      cases GoMap.get? rest k <;> rfl

/-- One turn of the loop on a record whose key is not yet in the map adds one
entry to the inner map of its kind and none to the others. -/
theorem innerLength_cursorStep (m : GoMap GroupVersionResource (GoMap String String))
    (resource : Resource) (gvr : GroupVersionResource)
    (hfresh : cursorLookup m resource.GroupVersionResource (cursorKey resource) = none) :
    innerLength (cursorStep m resource) gvr =
      innerLength m gvr + if resource.GroupVersionResource = gvr then 1 else 0 := by
  simp only [innerLength, cursorStep, GoMap.get?_set]
  by_cases hg : resource.GroupVersionResource = gvr
  · subst hg
    simp only [if_true, GoMap.length_set]
    simp only [cursorLookup] at hfresh
    cases hget : GoMap.get? m resource.GroupVersionResource with
    | none => simp [GoMap.get?]
    | some versions =>
      rw [hget] at hfresh
      have hkey : GoMap.get? versions (cursorKey resource) = none := hfresh
      simp [hkey]
  · simp [hg]

/-- Over records no two of which are filed under the same kind and key, and
none of which is in the map yet, the loop adds to the inner map of a kind one
entry per record of that kind. -/
theorem innerLength_foldl (rows : List Resource)
    (m : GoMap GroupVersionResource (GoMap String String)) (gvr : GroupVersionResource)
    (hdistinct : rows.Pairwise (fun a b =>
      ¬ (a.GroupVersionResource = b.GroupVersionResource ∧ cursorKey a = cursorKey b)))
    (hfresh : ∀ resource ∈ rows,
      cursorLookup m resource.GroupVersionResource (cursorKey resource) = none) :
    innerLength (rows.foldl cursorStep m) gvr =
      innerLength m gvr + rows.countP (fun resource => decide (resource.GroupVersionResource = gvr)) := by
  induction rows generalizing m with
  | nil => simp
  | cons resource rest ih =>
    rw [List.pairwise_cons] at hdistinct
    have hstep := innerLength_cursorStep m resource gvr (hfresh resource (List.mem_cons_self _ _))
    have hfresh' : ∀ other ∈ rest,
        cursorLookup (cursorStep m resource) other.GroupVersionResource (cursorKey other)
          = none := by
      intro other hother
      rw [cursorLookup_cursorStep]
      have hne := hdistinct.1 other hother
      have hfiled : filedUnder other.GroupVersionResource (cursorKey other) resource = false := by
        simp only [filedUnder, Bool.and_eq_false_iff, decide_eq_false_iff_not]
        by_cases h1 : resource.GroupVersionResource = other.GroupVersionResource
        · exact Or.inr (fun h2 => hne ⟨h1, h2⟩)
        · exact Or.inl h1
      simp only [hfiled, Bool.false_eq_true, if_false]
      exact hfresh other (List.mem_cons_of_mem _ hother)
    rw [List.foldl_cons, ih (cursorStep m resource) hdistinct.2 hfresh', hstep, List.countP_cons]
    by_cases hg : resource.GroupVersionResource = gvr
    · simp only [hg, decide_True, if_true]
      omega
    · simp only [hg, decide_False, if_false, Bool.false_eq_true]
      omega

/-- In a store that satisfies identity uniqueness, the scanned records of a
cluster whose names hold no slash are filed under pairwise different kinds
and keys. -/
theorem scanned_distinct (rows : List Resource) (c : String)
    (hunique : rows.Pairwise (fun a b => a.identity ≠ b.identity))
    (hslash : ∀ row ∈ rows, row.Cluster = c → '/' ∉ row.Name.data) :
    ((rows.filter (fun row => decide (row.Cluster = c))).map selectCursorColumns).Pairwise
      (fun a b =>
        ¬ (a.GroupVersionResource = b.GroupVersionResource ∧ cursorKey a = cursorKey b)) := by
  rw [List.pairwise_map]
  refine List.Pairwise.imp_of_mem ?_ (hunique.filter _)
  intro a b hamem hbmem hab hsame
  obtain ⟨ha, hac⟩ := List.mem_filter.mp hamem
  obtain ⟨hb, hbc⟩ := List.mem_filter.mp hbmem
  have hac : a.Cluster = c := by simpa using hac
  have hbc : b.Cluster = c := by simpa using hbc
  rw [(selectCursorColumns_keeps a).1, (selectCursorColumns_keeps b).1,
    (selectCursorColumns_keeps a).2.1, (selectCursorColumns_keeps b).2.1] at hsame
  obtain ⟨hns, hname⟩ :=
    cursorKey_injective a b (hslash a ha hac) (hslash b hb hbc) hsame.2
  have hgvr := hsame.1
  simp only [Resource.GroupVersionResource, GroupVersionResource.mk.injEq] at hgvr
  apply hab
  simp [Resource.identity, hgvr.1, hgvr.2.1, hgvr.2.2, hac, hbc, hns, hname]

/-- C12, the code at the failing input: with the empty cluster name the
condition struct is all zero and the query has no condition. Over a store
that satisfies identity uniqueness and whose names and namespaces are free of
slashes and not empty, the inner map of apps/v1/deployments has one entry,
the version of the `c2` record, while the store holds no record of the empty
cluster. -/
theorem cursor_count_empty_cluster :
    twoClusterStore.Pairwise (fun a b => a.identity ≠ b.identity) ∧
    (∀ row ∈ twoClusterStore,
      '/' ∉ row.Namespace.data ∧ '/' ∉ row.Name.data ∧ row.Name ≠ "") ∧
    (∃ m, (factoryOf twoClusterStore).GetResourceVersions "" = Except.ok m ∧
      innerLength m ⟨"apps", "v1", "deployments"⟩ = 1 ∧
      cursorLookup m ⟨"apps", "v1", "deployments"⟩ "default/web" = some "7") ∧
    (twoClusterStore.filter (fun row => decide (row.Cluster = "" ∧
      row.GroupVersionResource = ⟨"apps", "v1", "deployments"⟩))).length = 0 := by
  refine ⟨by decide, by decide, ⟨_, rfl, by decide, by decide⟩, by decide⟩

/-- Away from the empty cluster name the cursor keys do not overwrite one
another. The key (the name, or `namespace/name` when the namespace is not
empty) determines namespace and name among records whose namespace and name
hold no slash and whose name is not empty. Hence, for a store that satisfies
identity uniqueness, a non-empty cluster `c` whose stored records are such,
and a query that succeeds with the map `m`: for every kind the inner map of
`m` has as many entries as the store has records of `c` of that kind, and
every stored record of `c` is in `m` under its kind and key with its
resource version. -/
theorem cursor_keys_distinct :
    (∀ a b : Resource,
      '/' ∉ a.Namespace.data → '/' ∉ a.Name.data → a.Name ≠ "" →
      '/' ∉ b.Namespace.data → '/' ∉ b.Name.data → b.Name ≠ "" →
      cursorKey a = cursorKey b → a.Namespace = b.Namespace ∧ a.Name = b.Name) ∧
    (∀ (f : StorageFactory) (c : String)
      (m : GoMap GroupVersionResource (GoMap String String)),
      c ≠ "" →
      f.db.rows.Pairwise (fun a b => a.identity ≠ b.identity) →
      (∀ row ∈ f.db.rows, row.Cluster = c →
        '/' ∉ row.Namespace.data ∧ '/' ∉ row.Name.data ∧ row.Name ≠ "") →
      f.GetResourceVersions c = Except.ok m →
      (∀ gvr, innerLength m gvr =
        (f.db.rows.filter (fun row =>
          decide (row.Cluster = c ∧ row.GroupVersionResource = gvr))).length) ∧
      (∀ row ∈ f.db.rows, row.Cluster = c →
        cursorLookup m row.GroupVersionResource (cursorKey row) =
          some row.ResourceVersion)) := by
  constructor
  · intro a b _ ha _ _ hb _ hkey
    exact cursorKey_injective a b ha hb hkey
  · intro f c m hc hunique hclean hok
    have hm := GetResourceVersions_ok f c hc m hok
    have hdistinct := scanned_distinct f.db.rows c hunique
      (fun row hrow hcl => (hclean row hrow hcl).2.1)
    constructor
    · intro gvr
      rw [hm, innerLength_foldl _ [] gvr hdistinct (by intro resource _; rfl),
        List.countP_map, List.countP_filter, List.countP_eq_length_filter]
      have hnil : innerLength [] gvr = 0 := rfl
      rw [hnil, Nat.zero_add]
      congr 1
      apply List.filter_congr
      intro row _
      simp [(selectCursorColumns_keeps row).1, Bool.and_comm]
    · intro row hrow hcl
      have hnil : ∀ last : Option String,
          (match last with
            | some rv => some rv
            | none => cursorLookup [] row.GroupVersionResource (cursorKey row)) = last := by
        intro last
        cases last <;> rfl
      rw [hm, cursorLookup_foldl, hnil, lastVersion_eq_some_iff _ _ _ hdistinct]
      refine ⟨selectCursorColumns row,
        List.mem_map.mpr ⟨row, List.mem_filter.mpr ⟨hrow, by simpa using hcl⟩, rfl⟩, ?_, ?_⟩
      · simp [filedUnder, (selectCursorColumns_keeps row).1,
          (selectCursorColumns_keeps row).2.1]
      · exact (selectCursorColumns_keeps row).2.2

/-- An instance: the cursor map of `c1` over a store that holds `c1` and `c2`
has one entry for the one deployment of `c1`. -/
theorem cursor_keys_distinct_example :
    innerLength [((⟨"apps", "v1", "deployments"⟩ : GroupVersionResource),
        ([("default/web", "100")] : GoMap String String))] ⟨"apps", "v1", "deployments"⟩ =
      (twoClusterStore.filter (fun row => decide (row.Cluster = "c1" ∧
        row.GroupVersionResource = ⟨"apps", "v1", "deployments"⟩))).length ∧
    (twoClusterStore.filter (fun row => decide (row.Cluster = "c1" ∧
        row.GroupVersionResource = ⟨"apps", "v1", "deployments"⟩))).length = 1 :=
  ⟨(cursor_keys_distinct.2 (factoryOf twoClusterStore) "c1" _ (by decide) (by decide)
      (by decide) rfl).1 ⟨"apps", "v1", "deployments"⟩,
    by decide⟩

end Clusterpedia
